import Mathlib

/-!
Verification of the matching system specification against the repository.

The repository implements a profile dashboard (Express + SQLite backend in
`src/data/server.js` / `src/unnamed/part_000`, React frontend) for matching
junior students with senior students.  The specification additionally
describes a Matching & Exclusive-Acceptance Engine (text vectorizer,
similarity scorer, candidate ranker, matching state machine) whose code is
not present under `src/`; those components are modelled here directly from
the specification's words, as marked on each definition.  The HTTP endpoints
of the backend are embedded from the JavaScript source.
-/

namespace StudentsMatch

/-! ## Text Vectorizer and Similarity Scorer (spec §4.1, §4.2) -/

abbrev Token := String

abbrev Doc := List Token

/-- Modelled from the spec: §4.1's deterministic fallback tokenizer,
"fixed-length character shingles" (length 2); the primary language-aware
segmenter is not in the sources. -/
def charShingles : List Char → List Token
  | c1 :: c2 :: rest => String.mk [c1, c2] :: charShingles (c2 :: rest)
  | _ => []

/-- Modelled from the spec: §4.1 tokenization of a free-text field. -/
def tokenize (text : String) : Doc :=
  charShingles text.toList

/-- Modelled from the spec: §4.1 "a sparse mapping from term to
term-frequency"; the term frequency of `t` in document `d`. -/
def tf (d : Doc) (t : Token) : ℕ :=
  d.count t

/-- Modelled from the spec: §4.2 document frequency of a term over the
responder corpus. -/
def df (corpus : List Doc) (t : Token) : ℕ :=
  (corpus.filter fun d => d.contains t).length

/-- Modelled from the spec: §4.2 "inverse-document-frequency weights
computed over the current responder corpus".  The spec fixes no formula;
we use the ratio `corpus size / document frequency` (0 when the term is in
no document), a deterministic nonnegative weighting. -/
def idf (corpus : List Doc) (t : Token) : ℚ :=
  if df corpus t = 0 then 0 else (corpus.length : ℚ) / (df corpus t : ℚ)

/-- Modelled from the spec: §4.2 TF-IDF weight of term `t` for document
`d`. -/
def tfidf (corpus : List Doc) (d : Doc) (t : Token) : ℚ :=
  (tf d t : ℚ) * idf corpus t

/-- Index set of terms used when comparing documents `r` and `s`: every
term of either document (terms outside both have weight 0). -/
def simV (r s : Doc) : Finset Token :=
  (r ++ s).toFinset

/-- Modelled from the spec: §4.2 `dot(R,S)` over the term set `V`. -/
def dotOn (V : Finset Token) (corpus : List Doc) (r s : Doc) : ℚ :=
  ∑ t ∈ V, tfidf corpus r t * tfidf corpus s t

/-- Modelled from the spec: squared Euclidean norm of the TF-IDF vector of
`d` over the term set `V`. -/
def normSqOn (V : Finset Token) (corpus : List Doc) (d : Doc) : ℚ :=
  ∑ t ∈ V, (tfidf corpus d t) ^ 2

/-- Modelled from the spec: §4.2 cosine similarity, "defined as
`dot(R,S) / (‖R‖·‖S‖)`, clamped to 0 when either vector's norm is zero
(empty text)". -/
noncomputable def similarity (corpus : List Doc) (r s : Doc) : ℝ :=
  if normSqOn (simV r s) corpus r = 0 ∨ normSqOn (simV r s) corpus s = 0 then 0
  else (dotOn (simV r s) corpus r s : ℝ) /
    (Real.sqrt (normSqOn (simV r s) corpus r) * Real.sqrt (normSqOn (simV r s) corpus s))

/-! ## Responder profiles and the Candidate Ranker (spec §3, §4.3) -/

/-- Modelled from the spec: §3 "an availability state (unavailable /
available / available-with-constraints)". -/
inductive Availability
  | unavailable
  | available
  | constrained
deriving DecidableEq

/-- Modelled from the spec: §3 Responder Profile and §6
`ListEligibleResponders()→[{id, text, availability_state,
recent_match_count}]`. -/
structure Responder where
  id : ℕ
  doc : Doc
  availability : Availability
  recentMatchCount : ℕ
deriving DecidableEq

/-- Modelled from the spec: §4.3 "availability_weight (1.0 fully
available, 0.5 available-with-constraints)"; unavailable responders are
never scored, we assign 0 for totality. -/
def availabilityWeight : Availability → ℚ
  | .available => 1
  | .constrained => 1 / 2
  | .unavailable => 0

/-- Modelled from the spec: §4.3 "history_weight ... defined as
`1 / (1 + recent_match_count)`". -/
def historyWeight (recentMatchCount : ℕ) : ℚ :=
  1 / (1 + (recentMatchCount : ℚ))

/-- Modelled from the spec: §3 Candidate Score
`{responder_id, similarity, availability_weight, history_weight,
composite}`. -/
structure CandidateScore where
  responder_id : ℕ
  similarity : ℝ
  availability_weight : ℚ
  history_weight : ℚ
  composite : ℝ

/-- Modelled from the spec: §4.3 eligible pool, the "set of responders
whose availability_state ≠ unavailable". -/
def eligible (pool : List Responder) : List Responder :=
  pool.filter fun r => decide (r.availability ≠ Availability.unavailable)

/-- Documents of a responder list, in pool order. -/
def docsOf (pool : List Responder) : List Doc :=
  pool.map (·.doc)

/-- Modelled from the spec: §4.2/§9 the corpus snapshot over which IDF
weights are computed — the documents of the current eligible candidates. -/
def corpusOf (pool : List Responder) : List Doc :=
  docsOf (eligible pool)

/-- Modelled from the spec: §3 `composite = 0.6·similarity +
0.2·availability_weight + 0.2·history_weight`. -/
noncomputable def scoreOf (corpus : List Doc) (req : Doc) (r : Responder) : CandidateScore :=
  { responder_id := r.id
    similarity := similarity corpus req r.doc
    availability_weight := availabilityWeight r.availability
    history_weight := historyWeight r.recentMatchCount
    composite := 0.6 * similarity corpus req r.doc
      + 0.2 * (availabilityWeight r.availability : ℝ)
      + 0.2 * (historyWeight r.recentMatchCount : ℝ) }

/-- Scores of every eligible candidate, in pool order. -/
noncomputable def scoreList (req : Doc) (pool : List Responder) : List CandidateScore :=
  (eligible pool).map (scoreOf (corpusOf pool) req)

/-- Modelled from the spec: §4.3 ranking order — "composite score
descending, ties by responder id ascending". -/
def scoreOrder (a b : CandidateScore) : Prop :=
  b.composite < a.composite ∨ (a.composite = b.composite ∧ a.responder_id ≤ b.responder_id)

noncomputable instance : DecidableRel scoreOrder :=
  fun a b => Classical.propDecidable (scoreOrder a b)

instance : IsTotal CandidateScore scoreOrder where
  total a b := by
    rcases lt_trichotomy a.composite b.composite with h | h | h
    · exact Or.inr (Or.inl h)
    · rcases Nat.le_total a.responder_id b.responder_id with hid | hid
      · exact Or.inl (Or.inr ⟨h, hid⟩)
      · exact Or.inr (Or.inr ⟨h.symm, hid⟩)
    · exact Or.inl (Or.inl h)

instance : IsTrans CandidateScore scoreOrder where
  trans a b c hab hbc := by
    rcases hab with hab | ⟨hab, haid⟩
    · rcases hbc with hbc | ⟨hbc, _⟩
      · exact Or.inl (hbc.trans hab)
      · exact Or.inl (hbc ▸ hab)
    · rcases hbc with hbc | ⟨hbc, hbid⟩
      · exact Or.inl (hab ▸ hbc)
      · exact Or.inr ⟨hab.trans hbc, haid.trans hbid⟩

/-- Sort candidate scores by `scoreOrder` (deterministic insertion sort). -/
noncomputable def rankScores (scores : List CandidateScore) : List CandidateScore :=
  List.insertionSort scoreOrder scores

/-- Modelled from the spec: §4.3 shortlist size N = 3. -/
def shortlistSize : ℕ := 3

/-- Modelled from the spec: §4.3/§7 ranking-time error. -/
inductive RankError
  | NoEligibleCandidates
deriving DecidableEq

/-- Modelled from the spec: §4.2/§7 scorer-level error, "fails with
`EmptyCorpus` when no responders are in the candidate pool". -/
inductive ScoreError
  | EmptyCorpus
deriving DecidableEq

/-- Modelled from the spec: §4.2 the Similarity Scorer applied to a
candidate pool: `EmptyCorpus` when the pool has no responders, otherwise
one similarity per candidate (0, not an error, for empty text). -/
noncomputable def scoreSimilarities (req : Doc) (pool : List Responder) :
    Except ScoreError (List ℝ) :=
  if pool = [] then .error .EmptyCorpus
  else .ok (pool.map fun r => similarity (docsOf pool) req r.doc)

/-- Modelled from the spec: §4.3 the Candidate Ranker — "the ordered top-N
(N=3) shortlist by composite score descending, ties by responder id
ascending", failing with `NoEligibleCandidates` when the eligible pool is
empty after filtering. -/
noncomputable def rank (req : Doc) (pool : List Responder) :
    Except RankError (List CandidateScore) :=
  if eligible pool = [] then .error .NoEligibleCandidates
  else .ok ((rankScores (scoreList req pool)).take shortlistSize)

/-! ## Matching State Machine (spec §4.4, §5) -/

/-- Modelled from the spec: §3 Match Record status. -/
inductive Status
  | Pending
  | Accepted
  | Completed
  | Cancelled
  | Expired
deriving DecidableEq

/-- Modelled from the spec: §3 Match Record `{id, requester_id,
ordered_candidate_list, offered_set, status, winner_id?, created_at,
resolved_at?}`. -/
structure MatchRecord where
  id : ℕ
  requester_id : ℕ
  candidates : List ℕ
  offered : List ℕ
  status : Status
  winner : Option ℕ
  created_at : ℕ
  resolved_at : Option ℕ
deriving DecidableEq

/-- Modelled from the spec: §7 accept-path and transition errors. -/
inductive MatchError
  | AlreadyMatched
  | InvalidTransition
  | UnknownOffer
deriving DecidableEq

/-- Modelled from the spec: §4.4 transition requests on a Match Record. -/
inductive MatchEvent
  | offer
  | accept (responder : ℕ)
  | decline (responder : ℕ)
  | complete
  | cancel
  | expire
deriving DecidableEq

/-- Modelled from the spec: §4.4 "Terminal states (Completed, Cancelled,
Expired)". -/
def isTerminal : Status → Bool
  | .Completed => true
  | .Cancelled => true
  | .Expired => true
  | _ => false

/-- Modelled from the spec: §4.4 transition function.  Events on one
record are serialized (§5: per-record compare-and-set); each transition is
a single atomic step.  Terminal states reject every event with
`InvalidTransition`; Accept succeeds only from Pending for an offered
responder (the CAS winner), returns `AlreadyMatched` on an Accepted record
and `UnknownOffer` (§4.5 validation) for a responder not in the offer set;
Decline empties the offer set towards Expired; `expire` is the timeout
transition, using the same Pending-only discipline. -/
def step (m : MatchRecord) (e : MatchEvent) : Except MatchError MatchRecord :=
  if isTerminal m.status then .error .InvalidTransition
  else
    match e with
    | .offer =>
        if m.status = .Pending then .ok m else .error .InvalidTransition
    | .accept r =>
        match m.status with
        | .Pending =>
            if r ∈ m.offered then .ok { m with status := .Accepted, winner := some r }
            else .error .UnknownOffer
        | .Accepted => .error .AlreadyMatched
        | _ => .error .InvalidTransition
    | .decline r =>
        if m.status = .Pending then
          if m.offered.erase r = [] then
            .ok { m with offered := m.offered.erase r, status := .Expired }
          else .ok { m with offered := m.offered.erase r }
        else .error .InvalidTransition
    | .complete =>
        if m.status = .Accepted then .ok { m with status := .Completed }
        else .error .InvalidTransition
    | .cancel =>
        if m.status = .Pending ∨ m.status = .Accepted then
          .ok { m with status := .Cancelled }
        else .error .InvalidTransition
    | .expire =>
        if m.status = .Pending then .ok { m with status := .Expired }
        else .error .InvalidTransition

/-- Modelled from the spec: §7 a failed transition "is not applied" — the
record kept by the engine after processing an event. -/
def applyEvent (m : MatchRecord) (e : MatchEvent) : MatchRecord :=
  match step m e with
  | .ok m2 => m2
  | .error _ => m

/-- Record after a serialized sequence of events. -/
def runEvents (m : MatchRecord) (es : List MatchEvent) : MatchRecord :=
  es.foldl applyEvent m

/-- Whether event `e` is an Accept that the engine honors in state `m`. -/
def acceptSucceeds (m : MatchRecord) (e : MatchEvent) : Bool :=
  match e with
  | .accept _ => (step m e).isOk
  | _ => false

/-- Number of honored Accepts over a serialized sequence of events. -/
def successfulAccepts (m : MatchRecord) : List MatchEvent → ℕ
  | [] => 0
  | e :: es =>
      (if acceptSucceeds m e then 1 else 0) + successfulAccepts (applyEvent m e) es

/-- Modelled from the spec: §4.4 creation — ranking produces the
shortlist, and the new record starts Pending "with `offered_set` = the
shortlist from 4.3 and no winner"; when ranking fails no record is
created and the error is returned to the caller (§4.3, §7: not retried
internally). -/
noncomputable def startMatch (mid rid : ℕ) (req : Doc) (pool : List Responder)
    (now : ℕ) : Except RankError MatchRecord :=
  (rank req pool).map fun shortlist =>
    { id := mid
      requester_id := rid
      candidates := shortlist.map (·.responder_id)
      offered := shortlist.map (·.responder_id)
      status := .Pending
      winner := none
      created_at := now
      resolved_at := none }

/-! ## Backend HTTP endpoints (src/unnamed/part_000, src/data/server.js) -/

/-- SQLite value as seen by the JavaScript row objects: NULL, TEXT or
INTEGER. -/
inductive Val
  | null
  | str (s : String)
  | int (n : ℤ)
deriving DecidableEq

/-- JavaScript truthiness of a row field (`row.last_name ? ... : ...`):
null/undefined, the empty string and 0 are falsy. -/
def jsTruthy : Val → Bool
  | .null => false
  | .str s => decide (s ≠ "")
  | .int n => decide (n ≠ 0)

/-- JavaScript template-literal rendering of a row field
(`` `${row.last_name} ${row.first_name}` ``): null renders as "null". -/
def jsShow : Val → String
  | .null => "null"
  | .str s => s
  | .int n => toString n

/-- A row of the `seniors` table (columns from part_000 and the dashboard
interfaces). -/
structure SeniorRow where
  id : ℤ
  email : String
  last_name : Val
  first_name : Val
  grade : Val
  department : Val
  job_search_completion : Val
  internship_experience : Val
  availability_status : Val
deriving DecidableEq

abbrev DB := List SeniorRow

/-- Roles returned by POST /api/verify-user. -/
inductive Role
  | ADMIN
  | SENIOR
deriving DecidableEq

/-- Outcome of POST /api/verify-user: a JSON `{role, name}` body, or the
HTTP 401 response. -/
inductive VerifyResult
  | ok (role : Role) (name : String)
  | unauthorized
deriving DecidableEq

/-- POST /api/verify-user (src/unnamed/part_000 lines 25-53): the
hard-coded admin test account short-circuits before the database is
consulted; otherwise `db.get` returns the first `seniors` row whose email
matches, yielding role SENIOR with the name built from
`row.last_name ? last first : fallback`; no row yields HTTP 401. -/
def verifyUser (db : DB) (email : String) : VerifyResult :=
  if email = "y.shibata0820@gmail.com" then .ok .ADMIN "テスト管理者"
  else
    match db.find? (fun r => r.email == email) with
    | some row =>
        .ok .SENIOR
          (if jsTruthy row.last_name then jsShow row.last_name ++ " " ++ jsShow row.first_name
           else "名無し先輩")
    | none => .unauthorized

/-- Request body of PUT /api/seniors/:id (src/unnamed/part_000 lines
91-96): the six destructured fields; a field absent from the JSON body is
bound as NULL. -/
structure UpdateBody where
  last_name : Val
  first_name : Val
  grade : Val
  department : Val
  internship_experience : Val
  availability_status : Val
deriving DecidableEq

/-- The SET clause of the UPDATE statement applied to one matching row. -/
def applyUpdate (b : UpdateBody) (r : SeniorRow) : SeniorRow :=
  { r with
    last_name := b.last_name
    first_name := b.first_name
    grade := b.grade
    department := b.department
    internship_experience := b.internship_experience
    availability_status := b.availability_status }

/-- PUT /api/seniors/:id (src/unnamed/part_000 lines 89-124):
`UPDATE seniors SET ... WHERE id = ?` rewrites the six listed columns of
every row whose id equals the path parameter and leaves all other rows
alone; the response carries `this.changes`, the number of rows the UPDATE
matched. -/
def updateSenior (db : DB) (idParam : ℤ) (b : UpdateBody) : DB × ℕ :=
  (db.map fun r => if r.id = idParam then applyUpdate b r else r,
   (db.filter fun r => r.id == idParam).length)

/-- Availability values offered by the dashboard status selector
(src/unnamed/part_005 lines 181-184: options 1 = 募集中, 0 = 停止中;
the same two options appear in part_003 and part_006, and
src/unnamed/part_004 line 14 documents `availability_status: number`
as "1: 募集中, 0: 停止中"). -/
def availabilityStatusOptions : List ℤ := [1, 0]

/-- Dashboard rendering of `availability_status` (part_004 lines 69-73,
part_005 lines 138-140): the value 1 renders as 募集中, every other value
as 停止中 — a binary interpretation. -/
def availabilityLabel (v : ℤ) : String :=
  if v = 1 then "募集中" else "停止中"

/-! ## Concrete instances used by witnesses and counterexamples -/

/-- A freshly created Pending Match Record with three offered
responders. -/
def mPending : MatchRecord :=
  { id := 7
    requester_id := 42
    candidates := [1, 2, 3]
    offered := [1, 2, 3]
    status := .Pending
    winner := none
    created_at := 0
    resolved_at := none }

/-- A responder that is not available. -/
def respOff : Responder :=
  { id := 5, doc := ["a"], availability := .unavailable, recentMatchCount := 0 }

/-- A pool whose eligible subset is empty. -/
def poolOff : List Responder := [respOff]

/-- An available responder with empty text. -/
def respEmpty : Responder :=
  { id := 1, doc := [], availability := .available, recentMatchCount := 0 }

def poolOne : List Responder := [respEmpty]

/-- The candidate score of `respEmpty` against an empty requester
document. -/
noncomputable def csEmpty : CandidateScore :=
  scoreOf (corpusOf poolOne) [] respEmpty

/-- Requester document with term frequencies y:1, z:5. -/
def reqDoc : Doc := ["y", "z", "z", "z", "z", "z"]

/-- Fully available responder with no recent matches and text disjoint
from the requester's. -/
def respA : Responder :=
  { id := 1, doc := ["w"], availability := .available, recentMatchCount := 0 }

/-- Available-with-constraints responder with three recent matches and
text overlapping the requester's (term frequencies y:5, z:1). -/
def respB : Responder :=
  { id := 2, doc := ["y", "y", "y", "y", "y", "z"], availability := .constrained,
    recentMatchCount := 3 }

def poolCE : List Responder := [respA, respB]

noncomputable def csA : CandidateScore := scoreOf (corpusOf poolCE) reqDoc respA

noncomputable def csB : CandidateScore := scoreOf (corpusOf poolCE) reqDoc respB

/-- A seniors row with a non-null last name. -/
def rowTanaka : SeniorRow :=
  { id := 1, email := "tanaka@example.com", last_name := .str "田中",
    first_name := .str "太郎", grade := .str "学部3年", department := .null,
    job_search_completion := .str "終了", internship_experience := .str "なし",
    availability_status := .int 1 }

/-- A seniors row whose last_name column is NULL. -/
def rowNoName : SeniorRow :=
  { id := 2, email := "sato@example.com", last_name := .null,
    first_name := .null, grade := .str "学部4年", department := .null,
    job_search_completion := .null, internship_experience := .null,
    availability_status := .int 0 }

def dbEx : DB := [rowTanaka, rowNoName]

/-- A concrete PUT /api/seniors/:id request body. -/
def bEx : UpdateBody :=
  { last_name := .str "鈴木", first_name := .str "次郎", grade := .str "修士1年",
    department := .str "データサイエンス学科", internship_experience := .str "なし",
    availability_status := .int 0 }

/-! ## Theorems -/

theorem step_not_pending {m : MatchRecord} (h : m.status ≠ .Pending) (e : MatchEvent) :
    (applyEvent m e).status ≠ .Pending := by
  cases hst : m.status <;> rw [hst] at h <;> try exact absurd rfl h
  all_goals cases e <;> simp [applyEvent, step, isTerminal, hst]

theorem step_accept_ok_inv {m m' : MatchRecord} {r : ℕ}
    (h : step m (.accept r) = .ok m') :
    m.status = .Pending ∧ r ∈ m.offered ∧ m'.status = .Accepted ∧ m'.winner = some r := by
  unfold step at h
  cases hst : m.status <;> rw [hst] at h <;> simp [isTerminal] at h
  by_cases hr : r ∈ m.offered
  · rw [if_pos hr] at h
    refine ⟨rfl, hr, ?_, ?_⟩ <;> cases h <;> rfl
  · rw [if_neg hr] at h
    simp at h

theorem accept_fails_of_not_pending {m : MatchRecord} (h : m.status ≠ .Pending)
    (e : MatchEvent) : acceptSucceeds m e = false := by
  cases e <;> simp [acceptSucceeds]
  case accept r =>
    cases hstep : step m (.accept r) with
    | ok m2 => exact absurd (step_accept_ok_inv hstep).1 h
    | error err => simp [Except.isOk, Except.toBool, hstep]

theorem no_accepts_of_not_pending {m : MatchRecord} (h : m.status ≠ .Pending) :
    ∀ es : List MatchEvent, successfulAccepts m es = 0 := by
  intro es
  induction es generalizing m with
  | nil => rfl
  | cons e es ih =>
      simp [successfulAccepts, accept_fails_of_not_pending h e]
      exact ih (step_not_pending h e)

theorem step_error_applyEvent {m : MatchRecord} {e : MatchEvent} {err : MatchError}
    (h : step m e = .error err) : applyEvent m e = m := by
  simp [applyEvent, h]

/-- C1: amended.  Over any serialized sequence of transition requests on a
Match Record, at most one Accept is honored; an honored Accept is a
Pending-to-Accepted compare-and-set by an offered responder that records
that responder as winner; each Accept on a record already Accepted returns
`AlreadyMatched`; and a failed transition (including an Accept that lost
the race to a timeout expiry, which fails with `InvalidTransition`) never
modifies the record. -/
theorem accept_exclusive :
    (∀ (m : MatchRecord) (es : List MatchEvent), successfulAccepts m es ≤ 1) ∧
    (∀ (m m' : MatchRecord) (r : ℕ), step m (.accept r) = .ok m' →
      m.status = .Pending ∧ r ∈ m.offered ∧ m'.status = .Accepted ∧ m'.winner = some r) ∧
    (∀ (m : MatchRecord) (r : ℕ), m.status = .Accepted →
      step m (.accept r) = .error .AlreadyMatched ∧ applyEvent m (.accept r) = m) ∧
    (∀ (m : MatchRecord) (e : MatchEvent) (err : MatchError),
      step m e = .error err → applyEvent m e = m) := by
  refine ⟨?_, ?_, ?_, ?_⟩
  · intro m es
    induction es generalizing m with
    | nil => exact Nat.zero_le 1
    | cons e es ih =>
        by_cases hs : acceptSucceeds m e
        · have he : ∃ r, e = MatchEvent.accept r := by
            cases e <;> simp [acceptSucceeds] at hs ⊢
          obtain ⟨r, rfl⟩ := he
          have hok : ∃ m2, step m (.accept r) = .ok m2 := by
            simp [acceptSucceeds] at hs
            cases hstep : step m (.accept r) with
            | ok m2 => exact ⟨m2, rfl⟩
            | error err => simp [Except.isOk, Except.toBool, hstep] at hs
          obtain ⟨m2, hok⟩ := hok
          have hacc := (step_accept_ok_inv hok).2.2.1
          have happ : applyEvent m (.accept r) = m2 := by simp [applyEvent, hok]
          have hnp : (applyEvent m (.accept r)).status ≠ .Pending := by
            rw [happ, hacc]; simp
          simp [successfulAccepts, hs, no_accepts_of_not_pending hnp]
        · simp [successfulAccepts, hs]
          exact ih (applyEvent m e)
  · intro m m' r h
    exact step_accept_ok_inv h
  · intro m r h
    have hstep : step m (MatchEvent.accept r) = .error .AlreadyMatched := by
      simp [step, isTerminal, h]
    exact ⟨hstep, step_error_applyEvent hstep⟩
  · intro m e err h
    exact step_error_applyEvent h

theorem accept_exclusive_witness :
    successfulAccepts mPending [.accept 1, .accept 2, .accept 3] ≤ 1 ∧
    (mPending.status = .Pending ∧ (1 : ℕ) ∈ mPending.offered ∧
      (applyEvent mPending (.accept 1)).status = .Accepted ∧
      (applyEvent mPending (.accept 1)).winner = some 1) ∧
    (step (applyEvent mPending (.accept 1)) (.accept 2) = .error .AlreadyMatched ∧
      applyEvent (applyEvent mPending (.accept 1)) (.accept 2) = applyEvent mPending (.accept 1)) ∧
    applyEvent mPending .complete = mPending :=
  ⟨accept_exclusive.1 mPending _,
   accept_exclusive.2.1 mPending (applyEvent mPending (.accept 1)) 1 (by rfl),
   accept_exclusive.2.2.1 (applyEvent mPending (.accept 1)) 2 (by decide),
   accept_exclusive.2.2.2 mPending .complete .InvalidTransition (by rfl)⟩

/-- C1: counterexample to the claim as stated.  On a Pending record with
responder 1 offered, an Accept that loses the race with the timeout expiry
(processed right after the expiry's compare-and-set) returns
`InvalidTransition`, not `AlreadyMatched`. -/
theorem accept_after_expiry_invalid :
    step (applyEvent mPending .expire) (.accept 1) =
        Except.error MatchError.InvalidTransition ∧
      MatchError.InvalidTransition ≠ MatchError.AlreadyMatched ∧
      (1 : ℕ) ∈ mPending.offered ∧ mPending.status = Status.Pending :=
  ⟨rfl, by decide, by decide, rfl⟩

/-- C6: once a Match Record is in a terminal state (Completed, Cancelled
or Expired), every transition request — Offer, Accept, Decline, Complete,
Cancel, and the timeout — returns `InvalidTransition` and leaves the
record unchanged. -/
theorem terminal_rejects_all :
    ∀ (m : MatchRecord) (e : MatchEvent),
      m.status = .Completed ∨ m.status = .Cancelled ∨ m.status = .Expired →
      step m e = .error .InvalidTransition ∧ applyEvent m e = m := by
  intro m e h
  have ht : isTerminal m.status = true := by
    rcases h with h | h | h <;> rw [h] <;> rfl
  have hstep : step m e = .error .InvalidTransition := by
    unfold step
    rw [if_pos ht]
  exact ⟨hstep, step_error_applyEvent hstep⟩

theorem idf_nonneg (corpus : List Doc) (t : Token) : 0 ≤ idf corpus t := by
  rw [idf]
  split
  · exact le_refl 0
  · exact div_nonneg (Nat.cast_nonneg _) (Nat.cast_nonneg _)

theorem tfidf_nonneg (corpus : List Doc) (d : Doc) (t : Token) :
    0 ≤ tfidf corpus d t :=
  mul_nonneg (Nat.cast_nonneg _) (idf_nonneg corpus t)

theorem dotOn_nonneg (V : Finset Token) (corpus : List Doc) (r s : Doc) :
    0 ≤ dotOn V corpus r s :=
  Finset.sum_nonneg fun t _ => mul_nonneg (tfidf_nonneg corpus r t) (tfidf_nonneg corpus s t)

theorem normSqOn_nonneg (V : Finset Token) (corpus : List Doc) (d : Doc) :
    0 ≤ normSqOn V corpus d :=
  Finset.sum_nonneg fun _ _ => sq_nonneg _

theorem dotOn_sq_le (V : Finset Token) (corpus : List Doc) (r s : Doc) :
    (dotOn V corpus r s) ^ 2 ≤ normSqOn V corpus r * normSqOn V corpus s :=
  Finset.sum_mul_sq_le_sq_mul_sq V _ _

theorem similarity_nonneg (corpus : List Doc) (r s : Doc) :
    0 ≤ similarity corpus r s := by
  rw [similarity]
  split
  · exact le_refl 0
  · refine div_nonneg ?_ (mul_nonneg (Real.sqrt_nonneg _) (Real.sqrt_nonneg _))
    exact_mod_cast dotOn_nonneg (simV r s) corpus r s

theorem similarity_le_one (corpus : List Doc) (r s : Doc) :
    similarity corpus r s ≤ 1 := by
  rw [similarity]
  split
  · exact zero_le_one
  · rename_i hguard
    push_neg at hguard
    obtain ⟨hr0, hs0⟩ := hguard
    have hrpos : (0 : ℚ) < normSqOn (simV r s) corpus r :=
      lt_of_le_of_ne (normSqOn_nonneg _ _ _) (Ne.symm hr0)
    have hspos : (0 : ℚ) < normSqOn (simV r s) corpus s :=
      lt_of_le_of_ne (normSqOn_nonneg _ _ _) (Ne.symm hs0)
    have hden : (0 : ℝ) < Real.sqrt (normSqOn (simV r s) corpus r) *
        Real.sqrt (normSqOn (simV r s) corpus s) :=
      mul_pos (Real.sqrt_pos.mpr (by exact_mod_cast hrpos))
        (Real.sqrt_pos.mpr (by exact_mod_cast hspos))
    rw [div_le_one hden]
    have hdot : (0 : ℚ) ≤ dotOn (simV r s) corpus r s := dotOn_nonneg _ _ _ _
    have h1 : ((dotOn (simV r s) corpus r s : ℚ) : ℝ) =
        Real.sqrt (((dotOn (simV r s) corpus r s : ℚ) : ℝ) ^ 2) :=
      (Real.sqrt_sq (by exact_mod_cast hdot)).symm
    rw [h1, ← Real.sqrt_mul (by positivity) ((normSqOn (simV r s) corpus s : ℚ) : ℝ)]
    apply Real.sqrt_le_sqrt
    have h2 := dotOn_sq_le (simV r s) corpus r s
    exact_mod_cast h2

theorem availabilityWeight_mem (a : Availability) :
    0 ≤ availabilityWeight a ∧ availabilityWeight a ≤ 1 := by
  cases a <;> norm_num [availabilityWeight]

theorem historyWeight_mem (n : ℕ) : 0 ≤ historyWeight n ∧ historyWeight n ≤ 1 := by
  rw [historyWeight]
  constructor
  · positivity
  · rw [div_le_one (by positivity)]
    exact le_add_of_nonneg_right (Nat.cast_nonneg n)

/-- C2: every candidate score produced by the Ranker satisfies
`composite = 0.6·similarity + 0.2·availability_weight +
0.2·history_weight`, with availability_weight and history_weight in
[0,1], and both similarity and composite lie in [0,1]. -/
theorem score_formula_and_bounds :
    ∀ (req : Doc) (pool : List Responder) (c : CandidateScore),
      c ∈ scoreList req pool →
      c.composite = 0.6 * c.similarity + 0.2 * (c.availability_weight : ℝ)
          + 0.2 * (c.history_weight : ℝ) ∧
      0 ≤ c.availability_weight ∧ c.availability_weight ≤ 1 ∧
      0 ≤ c.history_weight ∧ c.history_weight ≤ 1 ∧
      0 ≤ c.similarity ∧ c.similarity ≤ 1 ∧
      0 ≤ c.composite ∧ c.composite ≤ 1 := by
  intro req pool c hc
  rw [scoreList] at hc
  obtain ⟨r, hrmem, rfl⟩ := List.mem_map.mp hc
  have hsim0 := similarity_nonneg (corpusOf pool) req r.doc
  have hsim1 := similarity_le_one (corpusOf pool) req r.doc
  have haw := availabilityWeight_mem r.availability
  have hhw := historyWeight_mem r.recentMatchCount
  have haw0 : (0 : ℝ) ≤ (availabilityWeight r.availability : ℚ) := by exact_mod_cast haw.1
  have haw1 : ((availabilityWeight r.availability : ℚ) : ℝ) ≤ 1 := by exact_mod_cast haw.2
  have hhw0 : (0 : ℝ) ≤ (historyWeight r.recentMatchCount : ℚ) := by exact_mod_cast hhw.1
  have hhw1 : ((historyWeight r.recentMatchCount : ℚ) : ℝ) ≤ 1 := by exact_mod_cast hhw.2
  refine ⟨rfl, haw.1, haw.2, hhw.1, hhw.2, hsim0, hsim1, ?_, ?_⟩
  · show (0 : ℝ) ≤ 0.6 * similarity (corpusOf pool) req r.doc
      + 0.2 * (availabilityWeight r.availability : ℝ)
      + 0.2 * (historyWeight r.recentMatchCount : ℝ)
    nlinarith
  · show (0.6 * similarity (corpusOf pool) req r.doc
      + 0.2 * (availabilityWeight r.availability : ℝ)
      + 0.2 * (historyWeight r.recentMatchCount : ℝ)) ≤ 1
    nlinarith

theorem score_formula_and_bounds_witness :
    csEmpty.composite = 0.6 * csEmpty.similarity + 0.2 * (csEmpty.availability_weight : ℝ)
        + 0.2 * (csEmpty.history_weight : ℝ) ∧
    0 ≤ csEmpty.availability_weight ∧ csEmpty.availability_weight ≤ 1 ∧
    0 ≤ csEmpty.history_weight ∧ csEmpty.history_weight ≤ 1 ∧
    0 ≤ csEmpty.similarity ∧ csEmpty.similarity ≤ 1 ∧
    0 ≤ csEmpty.composite ∧ csEmpty.composite ≤ 1 :=
  score_formula_and_bounds [] poolOne csEmpty (List.mem_singleton.mpr rfl)

/-- C5: the Similarity Scorer fails with `EmptyCorpus` exactly when the
candidate pool contains no responders; for any documents, a zero-norm
TF-IDF vector on either side yields similarity 0 rather than an error, and
otherwise the cosine quotient is taken with a provably nonzero
denominator. -/
theorem scorer_empty_corpus_and_zero_norm :
    ∀ (req : Doc) (pool : List Responder),
      (scoreSimilarities req pool = .error .EmptyCorpus ↔ pool = []) ∧
      ∀ (corpus : List Doc) (s : Doc),
        (normSqOn (simV req s) corpus req = 0 ∨ normSqOn (simV req s) corpus s = 0 →
          similarity corpus req s = 0) ∧
        (¬(normSqOn (simV req s) corpus req = 0 ∨ normSqOn (simV req s) corpus s = 0) →
          Real.sqrt (normSqOn (simV req s) corpus req) *
              Real.sqrt (normSqOn (simV req s) corpus s) ≠ 0 ∧
            similarity corpus req s =
              (dotOn (simV req s) corpus req s : ℝ) /
                (Real.sqrt (normSqOn (simV req s) corpus req) *
                  Real.sqrt (normSqOn (simV req s) corpus s))) := by
  intro req pool
  constructor
  · constructor
    · intro h
      by_contra hne
      rw [scoreSimilarities, if_neg hne] at h
      simp at h
    · intro h
      rw [scoreSimilarities, if_pos h]
  · intro corpus s
    constructor
    · intro h
      rw [similarity, if_pos h]
    · intro h
      have hsplit := not_or.mp h
      have hrpos : (0 : ℚ) < normSqOn (simV req s) corpus req :=
        lt_of_le_of_ne (normSqOn_nonneg _ _ _) (Ne.symm hsplit.1)
      have hspos : (0 : ℚ) < normSqOn (simV req s) corpus s :=
        lt_of_le_of_ne (normSqOn_nonneg _ _ _) (Ne.symm hsplit.2)
      refine ⟨?_, ?_⟩
      · exact ne_of_gt (mul_pos (Real.sqrt_pos.mpr (by exact_mod_cast hrpos))
          (Real.sqrt_pos.mpr (by exact_mod_cast hspos)))
      · rw [similarity, if_neg h]

theorem toFinset_dedup (l : List Token) : l.dedup.toFinset = l.toFinset := by
  ext a
  simp [List.mem_toFinset, List.mem_dedup]

theorem sum_over_toFinset (l : List Token) (f : Token → ℚ) :
    l.toFinset.sum f = (l.dedup.map f).sum := by
  rw [← toFinset_dedup l, List.sum_toFinset f (List.nodup_dedup l)]

theorem normSqOn_nil (V : Finset Token) (corpus : List Doc) :
    normSqOn V corpus [] = 0 :=
  Finset.sum_eq_zero fun t _ => by simp [tfidf, tf]

theorem tfidf_aa : tfidf [["a"]] ["a"] "a" = 1 := by
  rw [tfidf, idf, show df [["a"]] "a" = 1 from by decide,
    show tf ["a"] "a" = 1 from by decide, show ([["a"]] : List Doc).length = 1 from by decide]
  norm_num

theorem normSq_aa : normSqOn (simV ["a"] ["a"]) [["a"]] ["a"] = 1 := by
  rw [normSqOn, simV, sum_over_toFinset,
    show ((["a"] : Doc) ++ ["a"]).dedup = ["a"] from by decide]
  simp only [List.map_cons, List.map_nil, List.sum_cons, List.sum_nil]
  rw [tfidf_aa]
  norm_num

theorem scorer_empty_corpus_witness :
    (scoreSimilarities [] ([] : List Responder) = .error .EmptyCorpus ↔
      ([] : List Responder) = []) ∧
    similarity [["a"]] [] ["a"] = 0 ∧
    (Real.sqrt (normSqOn (simV ["a"] ["a"]) [["a"]] ["a"]) *
        Real.sqrt (normSqOn (simV ["a"] ["a"]) [["a"]] ["a"]) ≠ 0 ∧
      similarity [["a"]] ["a"] ["a"] =
        (dotOn (simV ["a"] ["a"]) [["a"]] ["a"] ["a"] : ℝ) /
          (Real.sqrt (normSqOn (simV ["a"] ["a"]) [["a"]] ["a"]) *
            Real.sqrt (normSqOn (simV ["a"] ["a"]) [["a"]] ["a"]))) :=
  ⟨(scorer_empty_corpus_and_zero_norm [] []).1,
   ((scorer_empty_corpus_and_zero_norm [] []).2 [["a"]] ["a"]).1
     (Or.inl (normSqOn_nil _ _)),
   ((scorer_empty_corpus_and_zero_norm ["a"] []).2 [["a"]] ["a"]).2
     (by rw [normSq_aa]; norm_num)⟩

theorem tfidfReqY : tfidf (corpusOf poolCE) reqDoc "y" = 2 := by
  rw [tfidf, idf, show df (corpusOf poolCE) "y" = 1 from by decide,
    show tf reqDoc "y" = 1 from by decide,
    show (corpusOf poolCE).length = 2 from by decide]
  norm_num

theorem tfidfReqZ : tfidf (corpusOf poolCE) reqDoc "z" = 10 := by
  rw [tfidf, idf, show df (corpusOf poolCE) "z" = 1 from by decide,
    show tf reqDoc "z" = 5 from by decide,
    show (corpusOf poolCE).length = 2 from by decide]
  norm_num

theorem tfidfReqW : tfidf (corpusOf poolCE) reqDoc "w" = 0 := by
  rw [tfidf, show tf reqDoc "w" = 0 from by decide]
  norm_num

theorem tfidfAY : tfidf (corpusOf poolCE) respA.doc "y" = 0 := by
  rw [tfidf, show tf respA.doc "y" = 0 from by decide]
  norm_num

theorem tfidfAZ : tfidf (corpusOf poolCE) respA.doc "z" = 0 := by
  rw [tfidf, show tf respA.doc "z" = 0 from by decide]
  norm_num

theorem tfidfAW : tfidf (corpusOf poolCE) respA.doc "w" = 2 := by
  rw [tfidf, idf, show df (corpusOf poolCE) "w" = 1 from by decide,
    show tf respA.doc "w" = 1 from by decide,
    show (corpusOf poolCE).length = 2 from by decide]
  norm_num

theorem tfidfBY : tfidf (corpusOf poolCE) respB.doc "y" = 10 := by
  rw [tfidf, idf, show df (corpusOf poolCE) "y" = 1 from by decide,
    show tf respB.doc "y" = 5 from by decide,
    show (corpusOf poolCE).length = 2 from by decide]
  norm_num

theorem tfidfBZ : tfidf (corpusOf poolCE) respB.doc "z" = 2 := by
  rw [tfidf, idf, show df (corpusOf poolCE) "z" = 1 from by decide,
    show tf respB.doc "z" = 1 from by decide,
    show (corpusOf poolCE).length = 2 from by decide]
  norm_num

theorem dedupReqA : (reqDoc ++ respA.doc).dedup = ["y", "z", "w"] := by decide

theorem dedupReqB : (reqDoc ++ respB.doc).dedup = ["y", "z"] := by decide

theorem dotA_eq : dotOn (simV reqDoc respA.doc) (corpusOf poolCE) reqDoc respA.doc = 0 := by
  rw [dotOn, simV, sum_over_toFinset, dedupReqA]
  simp only [List.map_cons, List.map_nil, List.sum_cons, List.sum_nil]
  rw [tfidfReqY, tfidfReqZ, tfidfReqW, tfidfAY, tfidfAZ, tfidfAW]
  norm_num

theorem normReqA : normSqOn (simV reqDoc respA.doc) (corpusOf poolCE) reqDoc = 104 := by
  rw [normSqOn, simV, sum_over_toFinset, dedupReqA]
  simp only [List.map_cons, List.map_nil, List.sum_cons, List.sum_nil]
  rw [tfidfReqY, tfidfReqZ, tfidfReqW]
  norm_num

theorem normA : normSqOn (simV reqDoc respA.doc) (corpusOf poolCE) respA.doc = 4 := by
  rw [normSqOn, simV, sum_over_toFinset, dedupReqA]
  simp only [List.map_cons, List.map_nil, List.sum_cons, List.sum_nil]
  rw [tfidfAY, tfidfAZ, tfidfAW]
  norm_num

theorem dotB_eq : dotOn (simV reqDoc respB.doc) (corpusOf poolCE) reqDoc respB.doc = 40 := by
  rw [dotOn, simV, sum_over_toFinset, dedupReqB]
  simp only [List.map_cons, List.map_nil, List.sum_cons, List.sum_nil]
  rw [tfidfReqY, tfidfReqZ, tfidfBY, tfidfBZ]
  norm_num

theorem normReqB : normSqOn (simV reqDoc respB.doc) (corpusOf poolCE) reqDoc = 104 := by
  rw [normSqOn, simV, sum_over_toFinset, dedupReqB]
  simp only [List.map_cons, List.map_nil, List.sum_cons, List.sum_nil]
  rw [tfidfReqY, tfidfReqZ]
  norm_num

theorem normB : normSqOn (simV reqDoc respB.doc) (corpusOf poolCE) respB.doc = 104 := by
  rw [normSqOn, simV, sum_over_toFinset, dedupReqB]
  simp only [List.map_cons, List.map_nil, List.sum_cons, List.sum_nil]
  rw [tfidfBY, tfidfBZ]
  norm_num

theorem simA_eq : similarity (corpusOf poolCE) reqDoc respA.doc = 0 := by
  have hg : ¬(normSqOn (simV reqDoc respA.doc) (corpusOf poolCE) reqDoc = 0 ∨
      normSqOn (simV reqDoc respA.doc) (corpusOf poolCE) respA.doc = 0) := by
    rw [normReqA, normA]
    norm_num
  rw [similarity, if_neg hg, dotA_eq]
  norm_num

theorem simB_eq : similarity (corpusOf poolCE) reqDoc respB.doc = 5 / 13 := by
  have hg : ¬(normSqOn (simV reqDoc respB.doc) (corpusOf poolCE) reqDoc = 0 ∨
      normSqOn (simV reqDoc respB.doc) (corpusOf poolCE) respB.doc = 0) := by
    rw [normReqB, normB]
    norm_num
  rw [similarity, if_neg hg, dotB_eq, normReqB, normB]
  rw [Real.mul_self_sqrt (by norm_num : (0 : ℝ) ≤ ((104 : ℚ) : ℝ))]
  push_cast
  norm_num

theorem csA_sim : csA.similarity = 0 := simA_eq

theorem csB_sim : csB.similarity = 5 / 13 := simB_eq

theorem csA_composite : csA.composite = 2 / 5 := by
  show 0.6 * similarity (corpusOf poolCE) reqDoc respA.doc
      + 0.2 * ((availabilityWeight respA.availability : ℚ) : ℝ)
      + 0.2 * ((historyWeight respA.recentMatchCount : ℚ) : ℝ) = 2 / 5
  rw [simA_eq]
  norm_num [availabilityWeight, historyWeight, respA]

theorem csB_composite : csB.composite = 99 / 260 := by
  show 0.6 * similarity (corpusOf poolCE) reqDoc respB.doc
      + 0.2 * ((availabilityWeight respB.availability : ℚ) : ℝ)
      + 0.2 * ((historyWeight respB.recentMatchCount : ℚ) : ℝ) = 99 / 260
  rw [simB_eq]
  norm_num [availabilityWeight, historyWeight, respB]

theorem rankCE : rank reqDoc poolCE = .ok [csA, csB] := by
  have hord : scoreOrder csA csB := by
    left
    rw [csA_composite, csB_composite]
    norm_num
  rw [rank, if_neg (by decide)]
  rw [show scoreList reqDoc poolCE = [csA, csB] from rfl]
  rw [rankScores]
  rw [show List.insertionSort scoreOrder [csA, csB] =
    List.orderedInsert scoreOrder csA (List.orderedInsert scoreOrder csB []) from rfl]
  rw [List.orderedInsert_nil, List.orderedInsert_of_le scoreOrder [] hord]
  rfl

theorem rel_of_sorted_head_getLast {l : List CandidateScore}
    (hs : l.Sorted scoreOrder) {a b : CandidateScore}
    (ha : l.head? = some a) (hb : l.getLast? = some b) :
    b.composite ≤ a.composite := by
  cases l with
  | nil => cases ha
  | cons x t =>
      rw [List.head?_cons] at ha
      cases ha
      cases t with
      | nil =>
          rw [List.getLast?_singleton] at hb
          cases hb
          exact le_refl _
      | cons y t2 =>
          have hbmem : b ∈ y :: t2 := by
            rw [List.getLast?_cons_cons] at hb
            obtain ⟨hne, rfl⟩ := List.mem_getLast?_eq_getLast (Option.mem_def.mpr hb)
            exact List.getLast_mem hne
          have hrel := List.rel_of_sorted_cons hs b hbmem
          rcases hrel with h | ⟨h, _⟩
          · exact le_of_lt h
          · exact le_of_eq h.symm

/-- C3: amended.  For every requester and non-empty eligible responder
pool, the Ranker returns a shortlist of length min(3, number of eligible
responders), sorted by composite score descending with ties broken by
responder id ascending; the first entry's composite score is greater than
or equal to the last entry's (the corresponding claim about raw
similarities is false, see the counterexample). -/
theorem rank_shortlist_sorted :
    ∀ (req : Doc) (pool : List Responder), eligible pool ≠ [] →
      ∃ l : List CandidateScore,
        rank req pool = .ok l ∧
        l.length = min shortlistSize (eligible pool).length ∧
        l.Sorted scoreOrder ∧
        ∀ a b, l.head? = some a → l.getLast? = some b →
          b.composite ≤ a.composite := by
  intro req pool h
  have hsorted : (rankScores (scoreList req pool)).Sorted scoreOrder :=
    List.sorted_insertionSort scoreOrder (scoreList req pool)
  have htake : ((rankScores (scoreList req pool)).take shortlistSize).Sorted scoreOrder :=
    List.Pairwise.sublist (List.take_sublist shortlistSize _) hsorted
  refine ⟨(rankScores (scoreList req pool)).take shortlistSize, ?_, ?_, htake, ?_⟩
  · rw [rank, if_neg h]
  · rw [List.length_take]
    congr 1
    rw [rankScores, (List.perm_insertionSort scoreOrder (scoreList req pool)).length_eq,
      scoreList, List.length_map]
  · intro a b ha hb
    exact rel_of_sorted_head_getLast htake ha hb

theorem rank_shortlist_sorted_witness :
    ∃ l : List CandidateScore,
      rank reqDoc poolCE = .ok l ∧
      l.length = min shortlistSize (eligible poolCE).length ∧
      l.Sorted scoreOrder ∧
      ∀ a b, l.head? = some a → l.getLast? = some b →
        b.composite ≤ a.composite :=
  rank_shortlist_sorted reqDoc poolCE (by decide)

/-- C3: counterexample to the claim as stated.  For the requester document
`reqDoc` and the two-responder pool `poolCE`, the ranked shortlist is
`[csA, csB]`, and the first entry's similarity (0) is strictly below the
last entry's (5/13) — the composite order does not imply the similarity
order. -/
theorem rank_sim_order_refuted :
    rank reqDoc poolCE = .ok [csA, csB] ∧
    csA.similarity = 0 ∧ csB.similarity = 5 / 13 ∧
    csA.similarity < csB.similarity := by
  refine ⟨rankCE, csA_sim, csB_sim, ?_⟩
  rw [csA_sim, csB_sim]
  norm_num

/-- C4: when the eligible responder pool is empty after filtering out
unavailable responders, the Ranker fails with `NoEligibleCandidates`; the
error is propagated unchanged to the caller (the pure ranking function
performs no internal retry) and no Match Record is created. -/
theorem rank_no_eligible :
    ∀ (req : Doc) (pool : List Responder), eligible pool = [] →
      rank req pool = .error .NoEligibleCandidates ∧
      ∀ (mid rid now : ℕ), startMatch mid rid req pool now = .error .NoEligibleCandidates := by
  intro req pool h
  have hr : rank req pool = .error .NoEligibleCandidates := by
    rw [rank, if_pos h]
  exact ⟨hr, fun mid rid now => by rw [startMatch, hr]; rfl⟩

theorem rank_no_eligible_witness :
    rank [] poolOff = .error .NoEligibleCandidates ∧
    startMatch 0 0 [] poolOff 0 = .error .NoEligibleCandidates :=
  ⟨(rank_no_eligible [] poolOff (by decide)).1,
   (rank_no_eligible [] poolOff (by decide)).2 0 0 0⟩

/-- C7: determinism — the Ranker is a pure function of the requester
document and the responder corpus snapshot, so two runs on identical
inputs return the same ordered shortlist with identical composite
scores. -/
theorem rank_deterministic :
    ∀ (req : Doc) (pool : List Responder)
      (run1 run2 : Except RankError (List CandidateScore)),
      run1 = rank req pool → run2 = rank req pool → run1 = run2 := by
  intro req pool run1 run2 h1 h2
  rw [h1, h2]

theorem rank_deterministic_witness :
    rank reqDoc poolCE = rank reqDoc poolCE :=
  rank_deterministic reqDoc poolCE (rank reqDoc poolCE) (rank reqDoc poolCE) rfl rfl

/-- C8: counterexample to the claim as stated — the implemented
availability state of a responder (the dashboard's `availability_status`
selector) offers exactly two values, 1 (募集中) and 0 (停止中), not
three. -/
theorem availability_two_valued :
    availabilityStatusOptions.length ≠ 3 ∧ availabilityStatusOptions = [1, 0] := by
  decide

/-- C8: amended.  The implemented availability state takes one of exactly
two values (1 = recruiting, 0 = stopped, every other value rendered as
stopped); in the spec-modelled Ranker the availability state is
three-valued, only non-unavailable responders are admitted, a fully
available responder weighs 1.0, an available-with-constraints responder
weighs 0.5, and history_weight = 1 / (1 + recent_match_count). -/
theorem availability_model :
    availabilityStatusOptions.length = 2 ∧
    (∀ v : ℤ, availabilityLabel v = "募集中" ∨ availabilityLabel v = "停止中") ∧
    (∀ (pool : List Responder) (r : Responder),
      r ∈ eligible pool ↔ r ∈ pool ∧ r.availability ≠ .unavailable) ∧
    availabilityWeight .available = 1 ∧
    availabilityWeight .constrained = 1 / 2 ∧
    availabilityWeight .unavailable = 0 ∧
    (∀ n : ℕ, historyWeight n = 1 / (1 + (n : ℚ))) := by
  refine ⟨rfl, ?_, ?_, rfl, rfl, rfl, fun n => rfl⟩
  · intro v
    by_cases h : v = 1
    · exact Or.inl (by simp [availabilityLabel, h])
    · exact Or.inr (by simp [availabilityLabel, h])
  · intro pool r
    simp [eligible, List.mem_filter]

/-- C9: POST /api/verify-user — the hard-coded admin test email is
answered with role ADMIN and name テスト管理者 independently of the
database; any other email is answered with role SENIOR exactly when a
seniors row with that email exists (name falling back to 名無し先輩 when
its last_name is NULL), and with HTTP 401 when no such row exists. -/
theorem verifyUser_spec :
    ∀ (db : DB) (email : String),
      (email = "y.shibata0820@gmail.com" →
        verifyUser db email = .ok .ADMIN "テスト管理者" ∧
        ∀ db2 : DB, verifyUser db2 email = verifyUser db email) ∧
      (email ≠ "y.shibata0820@gmail.com" →
        ((∃ name, verifyUser db email = .ok .SENIOR name) ↔ ∃ r ∈ db, r.email = email) ∧
        (∀ r : SeniorRow, db.find? (fun x => x.email == email) = some r →
          r.last_name = .null → verifyUser db email = .ok .SENIOR "名無し先輩") ∧
        ((¬ ∃ r ∈ db, r.email = email) → verifyUser db email = .unauthorized)) := by
  intro db email
  constructor
  · intro he
    subst he
    exact ⟨by rw [verifyUser, if_pos rfl], fun db2 => by rw [verifyUser, if_pos rfl, verifyUser, if_pos rfl]⟩
  · intro hne
    refine ⟨?_, ?_, ?_⟩
    · constructor
      · rintro ⟨name, hname⟩
        rw [verifyUser, if_neg hne] at hname
        cases hf : db.find? (fun x => x.email == email) with
        | some row =>
            exact ⟨row, List.mem_of_find?_eq_some hf, by simpa using List.find?_some hf⟩
        | none =>
            rw [hf] at hname
            simp at hname
      · rintro ⟨r, hr, hremail⟩
        rw [verifyUser, if_neg hne]
        cases hf : db.find? (fun x => x.email == email) with
        | some row => exact ⟨_, rfl⟩
        | none =>
            rw [List.find?_eq_none] at hf
            exact absurd (by simpa using hremail) (hf r hr)
    · intro r hf hnull
      rw [verifyUser, if_neg hne, hf]
      simp [jsTruthy, hnull]
    · intro hno
      rw [verifyUser, if_neg hne]
      cases hf : db.find? (fun x => x.email == email) with
      | some row =>
          exact absurd ⟨row, List.mem_of_find?_eq_some hf, by simpa using List.find?_some hf⟩ hno
      | none => rfl

theorem verifyUser_spec_witness :
    (verifyUser dbEx "y.shibata0820@gmail.com" = .ok .ADMIN "テスト管理者" ∧
      ∀ db2 : DB, verifyUser db2 "y.shibata0820@gmail.com" =
        verifyUser dbEx "y.shibata0820@gmail.com") ∧
    ((∃ name, verifyUser dbEx "sato@example.com" = .ok .SENIOR name) ↔
      ∃ r ∈ dbEx, r.email = "sato@example.com") ∧
    verifyUser dbEx "sato@example.com" = .ok .SENIOR "名無し先輩" ∧
    verifyUser dbEx "nobody@example.com" = .unauthorized :=
  ⟨(verifyUser_spec dbEx "y.shibata0820@gmail.com").1 rfl,
   ((verifyUser_spec dbEx "sato@example.com").2 (by decide)).1,
   ((verifyUser_spec dbEx "sato@example.com").2 (by decide)).2.1 rowNoName (by rfl) rfl,
   ((verifyUser_spec dbEx "nobody@example.com").2 (by decide)).2.2 (by decide)⟩

/-- C10: PUT /api/seniors/:id — the UPDATE rewrites only the six listed
columns of the rows whose id equals the path parameter, leaving their id,
email and job_search_completion columns and every other row unchanged,
and the success response reports the number of rows the statement
changed. -/
theorem updateSenior_frame :
    ∀ (db : DB) (idParam : ℤ) (b : UpdateBody),
      (updateSenior db idParam b).1.length = db.length ∧
      (∀ (i : ℕ) (r : SeniorRow), db[i]? = some r →
        ∃ r2 : SeniorRow, (updateSenior db idParam b).1[i]? = some r2 ∧
          r2.id = r.id ∧ r2.email = r.email ∧
          r2.job_search_completion = r.job_search_completion ∧
          (r.id ≠ idParam → r2 = r) ∧
          (r.id = idParam → r2 = applyUpdate b r)) ∧
      (updateSenior db idParam b).2 = (db.filter fun r => r.id == idParam).length := by
  intro db idParam b
  refine ⟨by simp [updateSenior], ?_, rfl⟩
  intro i r hr
  refine ⟨if r.id = idParam then applyUpdate b r else r, ?_, ?_, ?_, ?_, ?_, ?_⟩
  · simp [updateSenior, List.getElem?_map, hr]
  · by_cases h : r.id = idParam <;> simp [h, applyUpdate]
  · by_cases h : r.id = idParam <;> simp [h, applyUpdate]
  · by_cases h : r.id = idParam <;> simp [h, applyUpdate]
  · intro h
    rw [if_neg h]
  · intro h
    rw [if_pos h]

theorem updateSenior_frame_witness :
    (updateSenior dbEx 1 bEx).1.length = dbEx.length ∧
    (∃ r2 : SeniorRow, (updateSenior dbEx 1 bEx).1[0]? = some r2 ∧
      r2.id = rowTanaka.id ∧ r2.email = rowTanaka.email ∧
      r2.job_search_completion = rowTanaka.job_search_completion ∧
      (rowTanaka.id ≠ 1 → r2 = rowTanaka) ∧
      (rowTanaka.id = 1 → r2 = applyUpdate bEx rowTanaka)) ∧
    (updateSenior dbEx 1 bEx).2 = (dbEx.filter fun r => r.id == 1).length :=
  ⟨(updateSenior_frame dbEx 1 bEx).1,
   (updateSenior_frame dbEx 1 bEx).2.1 0 rowTanaka (by rfl),
   (updateSenior_frame dbEx 1 bEx).2.2⟩

theorem terminal_rejects_all_witness :
    (runEvents mPending [.decline 1, .decline 2, .decline 3]).status = Status.Expired ∧
    (step (runEvents mPending [.decline 1, .decline 2, .decline 3]) (.accept 2) =
        .error .InvalidTransition ∧
      applyEvent (runEvents mPending [.decline 1, .decline 2, .decline 3]) (.accept 2) =
        runEvents mPending [.decline 1, .decline 2, .decline 3]) :=
  ⟨by decide,
   terminal_rejects_all (runEvents mPending [.decline 1, .decline 2, .decline 3])
     (.accept 2) (Or.inr (Or.inr (by decide)))⟩

end StudentsMatch
